import Mathlib

/-!
Shallow embedding of `onboard-grant-aggregator` (`src/src/main.rs`), a
Prometheus metrics exporter that aggregates three upstream data sources:
the Hack Club Bank ledger API (`hcb_data`), a GitHub subtree directory
count (`count_dirs`), and the Airtable records API
(`airtable_verifications`), together with the two pure projections
`count_transfers` and `avg_grant` and the gauge-update cycle of `main`.

Modelling conventions:
* HTTP responses are provided by an environment value: a page stream
  `Nat → FetchOutcome` for the ledger, and per-call response records for
  the other two sources.  `FetchOutcome.fail` stands for the `?`-paths of
  the source (transport error or response-body JSON-decode error).
* JSON documents are the inductive `Json` below, an embedding of
  `serde_json::Value` as used by this program (the program only ever
  consumes integers, arrays, objects and the `records` key; numbers are
  modelled as integers, matching the integral `amount_cents` field).
  `jsonToString` embeds `serde_json`'s compact `to_string` serialization:
  the source compares `json.to_string() == "[]"` to detect the ledger's
  end-of-data page.
* Rust `i64` arithmetic is modelled on unbounded `Int` (no overflow is
  exercised by any claim); Rust integer division truncates toward zero,
  hence `Int.tdiv`.  The `as u16` casts in the source are modelled as
  `% 65536`.
* `f64` values are modelled exactly: `FloatVal` is either NaN, a signed
  infinity, or an exact rational.  All concrete values appearing in this
  development are exactly representable in `f64`, so no rounding is
  modelled.
* A Rust `panic!`/`unwrap` failure is a distinguished `fatal` outcome
  (the process aborts; no value is returned), kept separate from an
  `Err` value that the source returns and handles.
* The unbounded `loop` of `hcb_data` is embedded with explicit fuel:
  result `none` means the loop did not exit within the given fuel.
-/

/-- Embedding of `serde_json::Value` as consumed by this program.
Numbers are modelled as integers (the program only reads the integral
`amount_cents` field and array/object structure). -/
inductive Json where
  | jnull : Json
  | jbool (b : Bool) : Json
  | jnum (n : Int) : Json
  | jstr (s : String) : Json
  | jarr (elems : List Json) : Json
  | jobj (fields : List (String × Json)) : Json

/-- Embedding of `serde_json`'s escaping of one character inside a JSON
string (compact form): quote and backslash are backslash-escaped, the
short control escapes are used where they exist, other control
characters become `\u00XX`. -/
def escapeChar (c : Char) : List Char :=
  if c = '"' then ['\\', '"']
  else if c = '\\' then ['\\', '\\']
  else if c = '\x08' then ['\\', 'b']
  else if c = '\x0c' then ['\\', 'f']
  else if c = '\n' then ['\\', 'n']
  else if c = '\r' then ['\\', 'r']
  else if c = '\t' then ['\\', 't']
  else if c.toNat < 0x20 then
    ['\\', 'u', '0', '0', Nat.digitChar (c.toNat / 16), Nat.digitChar (c.toNat % 16)]
  else [c]

/-- Escaping of a whole string body, character by character. -/
def escapeChars (cs : List Char) : List Char :=
  (cs.map escapeChar).flatten

mutual

/-- Character stream of `serde_json`'s compact `Value::to_string` for a
`Json` document (no whitespace; `"key":value` pairs joined by commas). -/
def jsonChars : Json → List Char
  | .jnull => ['n', 'u', 'l', 'l']
  | .jbool true => ['t', 'r', 'u', 'e']
  | .jbool false => ['f', 'a', 'l', 's', 'e']
  | .jnum n => (Int.repr n).data
  | .jstr s => '"' :: (escapeChars s.data ++ ['"'])
  | .jarr elems => '[' :: (jsonArrChars elems ++ [']'])
  | .jobj fields => '\x7b' :: (jsonObjChars fields ++ ['\x7d'])

/-- Comma-separated serialization of a JSON array's elements. -/
def jsonArrChars : List Json → List Char
  | [] => []
  | [x] => jsonChars x
  | x :: y :: xs => jsonChars x ++ ',' :: jsonArrChars (y :: xs)

/-- Comma-separated serialization of a JSON object's fields. -/
def jsonObjChars : List (String × Json) → List Char
  | [] => []
  | [(k, v)] => '"' :: (escapeChars k.data ++ '"' :: ':' :: jsonChars v)
  | (k, v) :: kv :: kvs =>
    ('"' :: (escapeChars k.data ++ '"' :: ':' :: jsonChars v)) ++ ',' :: jsonObjChars (kv :: kvs)

end

/-- Embedding of `serde_json::Value::to_string` (compact serialization),
the form the source compares against the literal `"[]"`. -/
def jsonToString (j : Json) : String :=
  (jsonChars j).asString

/-! Data model and the Transfer Source (`hcb_data`). -/

/-- Modelled from the spec: the `Transfer` struct lives in the
repository's `lib.rs`, which is not under `src/`; per the spec only the
signed integer `amount_cents` (currency minor units) is consumed, the
other ledger fields being passed through untyped/opaque. -/
structure Transfer where
  amount_cents : Int
deriving DecidableEq, Repr

/-- Modelled from the spec: serde's `Deserialize` for the missing
`Transfer` struct — an object carrying an integral `amount_cents` field
deserializes, other shapes fail (in the source a failure is hit by
`serde_json::from_value(..).unwrap()`). -/
def transferFromJson : Json → Option Transfer
  | .jobj fields =>
    match fields.lookup "amount_cents" with
    | some (.jnum n) => some ⟨n⟩
    | _ => none
  | _ => none

/-- JSON form of a well-formed ledger transfer element. -/
def transferToJson (t : Transfer) : Json :=
  .jobj [("amount_cents", .jnum t.amount_cents)]

/-- JSON body of a ledger page holding the given transfers. -/
def pageJson (ts : List Transfer) : Json :=
  .jarr (ts.map transferToJson)

/-- Outcome of one `reqwest::get` + `response.json::<serde_json::Value>()`
round trip in `hcb_data`: `fail` covers both `?`-paths of the source
(transport error and response-body JSON-decode error), `ok` carries the
decoded body. -/
inductive FetchOutcome where
  | fail : FetchOutcome
  | ok (body : Json) : FetchOutcome

/-- How one run of the `loop` in `hcb_data` ends. -/
inductive LoopExit where
  | brk (acc : List Transfer) : LoopExit
  | err : LoopExit
  | fatal : LoopExit
deriving DecidableEq, Repr

/-- Result of `hcb_data` as observed by `main`: `ok` is the returned
`Ok(transfers)`, `err` the returned `Err(e)` from a `?`, and `fatal` an
`unwrap` panic aborting the process. -/
inductive HcbResult where
  | ok (transfers : List Transfer) : HcbResult
  | err : HcbResult
  | fatal : HcbResult
deriving DecidableEq, Repr

/-- Element-by-element `serde_json::from_value(..).unwrap()` over one
page's array, as in the source's `for raw_transfer in raw_transfers`
loop; `none` models the panic on the first undecodable element. -/
def decodeTransfers : List Json → Option (List Transfer)
  | [] => some []
  | j :: js =>
    match transferFromJson j with
    | some t => (decodeTransfers js).map (t :: ·)
    | none => none

/-- The pagination `loop` of `hcb_data`, with explicit fuel (`none` =
the loop did not exit within the fuel).  Each iteration requests page
`pageOffset`; a transport/decode failure returns `Err` via `?`; a body
serializing to `"[]"` breaks; an array body has its elements decoded
and appended (an undecodable element panics); any other body only logs
and falls through; then `page_offset += 1`. -/
def hcbLoopFuel (pages : Nat → FetchOutcome) : Nat → Nat → List Transfer → Option LoopExit
  | 0, _, _ => none
  | fuel + 1, pageOffset, acc =>
    match pages pageOffset with
    | .fail => some .err
    | .ok json =>
      if jsonToString json = "[]" then
        some (.brk acc)
      else
        match json with
        | .jarr raw_transfers =>
          match decodeTransfers raw_transfers with
          | some ts => hcbLoopFuel pages fuel (pageOffset + 1) (acc ++ ts)
          | none => some .fatal
        | _ => hcbLoopFuel pages fuel (pageOffset + 1) acc

/-- The domain filter of `hcb_data`'s
`transfers.retain(|transfer| (transfer.amount_cents / 100) <= 100)`;
Rust `i64` division truncates toward zero, hence `Int.tdiv`. -/
def transferFilter (t : Transfer) : Bool :=
  Int.tdiv t.amount_cents 100 ≤ 100

/-- Embedding of `hcb_data`: run the pagination loop from page 0 with an empty
accumulator, then `retain` the domain filter on the accumulated
transfers and return `Ok`. -/
def hcb_data (pages : Nat → FetchOutcome) (fuel : Nat) : Option HcbResult :=
  match hcbLoopFuel pages fuel 0 [] with
  | none => none
  | some (.brk transfers) => some (.ok (transfers.filter transferFilter))
  | some .err => some .err
  | some .fatal => some .fatal

/-- Page stream serving the bodies of `before` as well-formed transfer
pages, then `rest` on every later request. -/
def pagesEnv (before : List (List Transfer)) (rest : FetchOutcome) : Nat → FetchOutcome :=
  fun i =>
    match before.get? i with
    | some p => .ok (pageJson p)
    | none => rest

/-! The Transfer Aggregator (`count_transfers`, `avg_grant`). -/

/-- Embedding of `count_transfers`: batch length on `Ok` (cast `as u16`, modelled as
`% 65536`), `0` on `Err` (the failure is only logged). -/
def count_transfers (transfers : Except Unit (List Transfer)) : Nat :=
  match transfers with
  | .ok count => count.length % 65536
  | .error _ => 0

/-- Exact model of an `f64` value as this program can produce one:
NaN, a signed infinity, or an exact rational (every finite value
computed in this development is exactly representable, so rounding is
not modelled). -/
inductive FloatVal where
  | nan : FloatVal
  | inf (pos : Bool) : FloatVal
  | val (q : ℚ) : FloatVal
deriving DecidableEq, Repr

/-- IEEE `f64` division on exact operands: `0/0` is NaN, `x/0` with
`x ≠ 0` a signed infinity, otherwise the exact quotient. -/
def floatDiv (a b : ℚ) : FloatVal :=
  if b = 0 then
    if a = 0 then .nan else .inf (0 < a)
  else .val (a / b)

/-- Embedding of `avg_grant`: on `Ok`, accumulate `total += transfer.amount_cents / 100`
(truncating `i64` division) over the batch, then return
`total as f64 / transfers.len() as f64`; on `Err`, return `0.0`. -/
def avg_grant (transfers : Except Unit (List Transfer)) : FloatVal :=
  match transfers with
  | .ok ts =>
    let total : Int := List.foldl (fun acc t => acc + Int.tdiv t.amount_cents 100) 0 ts
    floatDiv (total : ℚ) (ts.length : ℚ)
  | .error _ => .val 0

/-! The Directory Census (`count_dirs`). -/

/-- One entry yielded by `fs::read_dir` of the scratch path: the source
only asks whether the entry's path is a directory. -/
structure DirEntry where
  isDir : Bool
deriving DecidableEq, Repr

/-- Environment for one `count_dirs` call: whether the
`git_download::repo(..).exec()` fetch succeeds, whether `fs::read_dir`
succeeds, the entries it yields (each possibly an `Err`, dropped by
`filter_map(Result::ok)`), and whether `fs::remove_dir_all` succeeds. -/
structure DirEnv where
  fetchOk : Bool
  readDirOk : Bool
  entries : List (Except Unit DirEntry)
  removeOk : Bool

/-- Outcome of `count_dirs`: `fatal` is an `unwrap`/`expect` panic
aborting the process, `ret` the returned count; `scratchRemoved` records
whether `fs::remove_dir_all` on the scratch path was invoked and
succeeded before the exit. -/
inductive CountDirsOutcome where
  | fatal (scratchRemoved : Bool) : CountDirsOutcome
  | ret (count : Nat) (scratchRemoved : Bool) : CountDirsOutcome
deriving DecidableEq, Repr

/-- Embedding of `count_dirs`: fetch the `projects/` subtree (`unwrap` panics on
failure, before any cleanup), `read_dir` it (`expect` panics on failure,
before any cleanup), count the entries that are directories, then call
`remove_dir_all` whose success or failure is only logged, and return the
count (as `f64` in the source; the value is the `Nat` count). -/
def count_dirs (env : DirEnv) : CountDirsOutcome :=
  if env.fetchOk = false then .fatal false
  else if env.readDirOk = false then .fatal false
  else
    let dir_count :=
      ((env.entries.filterMap fun e => e.toOption).filter fun e => e.isDir).length
    .ret dir_count env.removeOk

/-! The Records Counter (`airtable_verifications`). -/

/-- Modelled from the spec: the `AirTableViews` enum lives in the
repository's `lib.rs`, which is not under `src/`; the spec gives the
two variants `Pending` and `Approved`. -/
inductive AirTableViews where
  | Pending : AirTableViews
  | Approved : AirTableViews
deriving DecidableEq, Repr

/-- The named Airtable view string selected by `airtable_verifications`
for each variant. -/
def viewName : AirTableViews → String
  | .Pending => "Pending"
  | .Approved => "Approved"

/-- Environment for one `airtable_verifications` call: whether the
`Client::new().get(..).send()` transport succeeds, and the decoded
response body (`none` = the body was not valid JSON). -/
structure AirEnv where
  sendOk : Bool
  body : Option Json

/-- Result of `airtable_verifications`: `fatal` is an `unwrap` panic
aborting the process, `ret` the returned `u16` count. -/
inductive AirResult where
  | fatal : AirResult
  | ret (n : Nat) : AirResult
deriving DecidableEq, Repr

/-- Embedding of `serde_json::Value::get` with a string key: a field lookup on an
object, `None` on any other value. -/
def Json.getKey : Json → String → Option Json
  | .jobj fields, key => fields.lookup key
  | _, _ => none

/-- Embedding of `serde_json::Value::as_array`. -/
def Json.asArray : Json → Option (List Json)
  | .jarr elems => some elems
  | _ => none

/-- Embedding of `airtable_verifications`: an absent `AIRTABLE_API` credential
returns `0` at once; with a credential, the response is `unwrap`ped
(transport failure panics), its JSON decode is `unwrap`ped (a non-JSON
body panics), then a missing top-level `records` key or a `records`
value that is not an array is logged and collapses to `0`, and an array
yields its length `as u16` (modelled `% 65536`). -/
def airtable_verifications (api_key : Except Unit String) (v : AirTableViews)
    (env : AirEnv) : AirResult :=
  let _view := viewName v
  match api_key with
  | .error _ => .ret 0
  | .ok _ =>
    if env.sendOk = false then .fatal
    else
      match env.body with
      | none => .fatal
      | some raw_data =>
        match raw_data.getKey "records" with
        | some records =>
          match records.asArray with
          | some records_array => .ret (records_array.length % 65536)
          | none => .ret 0
        | none => .ret 0

/-! The gauge-update cycle of `main`.  `main` awaits `hcb_data()` ONCE,
before registering the gauges and entering the scrape loop; every
iteration of `loop` then reuses that same `transfer_data` value, calls
`count_dirs()` afresh, and calls `airtable_verifications` twice with the
`AIRTABLE_API` value read once at startup. -/

/-- The five gauge values written by one iteration of `main`'s loop. -/
structure Gauges where
  submitted_projects : Nat
  transfers_count : Nat
  avg_grant_value : FloatVal
  airtable_records : Nat
  airtable_records_pending : Nat
deriving DecidableEq, Repr

/-- Upstream behaviour during one scrape cycle: the directory-census
environment, the two Airtable responses, and the pages the ledger API
would serve if it were queried during this cycle. -/
structure CycleEnv where
  dirEnv : DirEnv
  airApproved : AirEnv
  airPending : AirEnv
  ledgerPages : Nat → FetchOutcome

/-- One iteration of `main`'s scrape loop over a fixed `transfer_data`
value: `none` models a panic inside the iteration (the process dies). -/
def runCycle (airtable_api : Except Unit String)
    (transfer_data : Except Unit (List Transfer)) (env : CycleEnv) : Option Gauges :=
  match count_dirs env.dirEnv with
  | .fatal _ => none
  | .ret dirCount _ =>
    match airtable_verifications airtable_api .Approved env.airApproved with
    | .fatal => none
    | .ret approved =>
      match airtable_verifications airtable_api .Pending env.airPending with
      | .fatal => none
      | .ret pending =>
        some ⟨dirCount, count_transfers transfer_data, avg_grant transfer_data,
          approved, pending⟩

/-- Embedding of `main`: `hcb_data` is awaited once against the startup page stream;
its result (as the stored `Result`) is then fed unchanged into every
scrape cycle.  `none` models a startup fetch that panicked or did not
terminate within the fuel. -/
def mainModel (startupPages : Nat → FetchOutcome) (fuel : Nat)
    (airtable_api : Except Unit String) (cycles : List CycleEnv) :
    Option (List (Option Gauges)) :=
  match hcb_data startupPages fuel with
  | none => none
  | some .fatal => none
  | some (.ok ts) => some (cycles.map (runCycle airtable_api (.ok ts)))
  | some .err => some (cycles.map (runCycle airtable_api (.error ())))

/-- Follows the spec's words (§4.5, claim C6): each scrape-triggered
cycle invokes the Transfer Source once against that cycle's ledger and
feeds its fresh result into both aggregator projections.  This is the
per-cycle behaviour the spec describes, stated for comparison with
`mainModel`. -/
def runCycleFreshFetch (airtable_api : Except Unit String) (fuel : Nat)
    (env : CycleEnv) : Option Gauges :=
  match hcb_data env.ledgerPages fuel with
  | none => none
  | some .fatal => none
  | some (.ok ts) => runCycle airtable_api (.ok ts) env
  | some .err => runCycle airtable_api (.error ()) env

/-- Follows the spec's words (§4.2, claim C3): `average(batch_result)`
returns `sum(amount_cents)/100 / len` — the batch's total cents divided
by 100, divided by the batch length — stated for comparison with the
source's `avg_grant`. -/
def avgGrantSpecFormula (ts : List Transfer) : FloatVal :=
  floatDiv (((ts.map fun t => t.amount_cents).sum : ℚ) / 100) (ts.length : ℚ)

/-! Fixtures for the cycle-level claim: a benign environment in which
nothing panics and the Airtable credential is absent, so only the
ledger-derived gauges can vary. -/

/-- Scratch-directory environment in which everything succeeds and the
fetched subtree has no entries. -/
def benignDirEnv : DirEnv := ⟨true, true, [], true⟩

/-- Airtable response environment; never consulted in the fixtures
because the credential is absent. -/
def benignAirEnv : AirEnv := ⟨true, none⟩

/-- Ledger serving one page with a single $50 transfer, then `[]`. -/
def ledgerOneTransfer : Nat → FetchOutcome := pagesEnv [[⟨5000⟩]] (.ok (.jarr []))

/-- Ledger serving one page with the $50 transfer plus one additional
$60 transfer, then `[]`. -/
def ledgerTwoTransfers : Nat → FetchOutcome :=
  pagesEnv [[⟨5000⟩, ⟨6000⟩]] (.ok (.jarr []))

/-- First scrape cycle's upstream state. -/
def cycleEnvFirst : CycleEnv := ⟨benignDirEnv, benignAirEnv, benignAirEnv, ledgerOneTransfer⟩

/-- Second scrape cycle's upstream state: the ledger now returns one
additional transfer. -/
def cycleEnvSecond : CycleEnv := ⟨benignDirEnv, benignAirEnv, benignAirEnv, ledgerTwoTransfers⟩

example : count_transfers (.ok [⟨5000⟩]) = 1 := rfl
example : avg_grant (.ok [⟨5000⟩]) = .val 50 := by
  simp [avg_grant, floatDiv, show Int.tdiv 5000 100 = 50 from by decide]
example : avg_grant (.ok []) = .nan := by simp [avg_grant, floatDiv]
example : avg_grant (.error ()) = .val 0 := rfl
example : hcb_data (pagesEnv [[⟨5000⟩, ⟨15000⟩]] (.ok (.jarr []))) 2
    = some (.ok [⟨5000⟩]) := by decide
example : hcb_data (pagesEnv [] (.ok (.jarr []))) 1 = some (.ok []) := by decide
example : hcb_data (pagesEnv [[⟨100⟩]] .fail) 2 = some .err := by decide

example : airtable_verifications (.error ()) .Pending ⟨true, none⟩ = .ret 0 := rfl
example : airtable_verifications (.ok "k") .Approved ⟨false, none⟩ = .fatal := rfl
example : airtable_verifications (.ok "k") .Approved ⟨true, none⟩ = .fatal := rfl
example : airtable_verifications (.ok "k") .Approved
    (⟨true, some (.jobj [("records", .jarr [.jobj [], .jobj [], .jobj []])])⟩) = .ret 3 := by decide
example : airtable_verifications (.ok "k") .Approved
    (⟨true, some (.jobj [("other", .jnull)])⟩) = .ret 0 := by decide
example : airtable_verifications (.ok "k") .Approved
    (⟨true, some (.jobj [("records", .jnum 7)])⟩) = .ret 0 := by decide

example : jsonToString (.jarr []) = "[]" := rfl
example : jsonToString .jnull = "null" := rfl
example : jsonToString (.jnum (-12)) = "-12" := rfl
example : jsonToString (.jarr [.jnull]) = "[null]" := rfl
example : jsonToString (.jobj [("a", .jnum 1)]) = "\x7b\"a\":1\x7d" := rfl
example : (jsonToString (.jarr [.jnum 3, .jbool false]) = "[3,false]") := by decide

/-! Characterisation of the end-of-pagination test: the source breaks the
pagination loop exactly when `json.to_string() == "[]"`, and the only
`Json` document whose compact serialization is `"[]"` is the empty array. -/

lemma digitChar_ne_bracket : ∀ m : Nat, m < 10 → Nat.digitChar m ≠ '[' := by decide

lemma toDigitsCore_mem (fuel : Nat) : ∀ (n : Nat) (ds : List Char) (c : Char),
    c ∈ Nat.toDigitsCore 10 fuel n ds → c ∈ ds ∨ ∃ m, m < 10 ∧ c = Nat.digitChar m := by
  induction fuel with
  | zero => intro n ds c h; exact Or.inl h
  | succ f ih =>
    intro n ds c h
    rw [Nat.toDigitsCore] at h
    by_cases h10 : n / 10 = 0
    · simp only [h10, if_pos] at h
      rcases List.mem_cons.mp h with h1 | h1
      · exact Or.inr ⟨n % 10, Nat.mod_lt _ (by norm_num), h1⟩
      · exact Or.inl h1
    · simp only [h10, if_neg, if_false] at h
      rcases ih _ _ _ h with h1 | h1
      · rcases List.mem_cons.mp h1 with h2 | h2
        · exact Or.inr ⟨n % 10, Nat.mod_lt _ (by norm_num), h2⟩
        · exact Or.inl h2
      · exact Or.inr h1

lemma toDigitsCore_ne_nil (fuel : Nat) : ∀ (n : Nat) (ds : List Char), ds ≠ [] →
    Nat.toDigitsCore 10 fuel n ds ≠ [] := by
  induction fuel with
  | zero => intro n ds h; simpa [Nat.toDigitsCore] using h
  | succ f ih =>
    intro n ds h
    rw [Nat.toDigitsCore]
    by_cases h10 : n / 10 = 0
    · simp only [h10, if_pos]; exact List.cons_ne_nil _ _
    · simp only [h10, if_neg, if_false]
      exact ih _ _ (List.cons_ne_nil _ _)

lemma toDigits_ne_nil (n : Nat) : Nat.toDigits 10 n ≠ [] := by
  rw [Nat.toDigits, Nat.toDigitsCore]
  by_cases h10 : n / 10 = 0
  · simp only [h10, if_pos]; exact List.cons_ne_nil _ _
  · simp only [h10, if_neg, if_false]
    exact toDigitsCore_ne_nil _ _ _ (List.cons_ne_nil _ _)

lemma natRepr_data (n : Nat) : (Nat.repr n).data = Nat.toDigits 10 n := rfl

lemma natRepr_mem_digit (n : Nat) (c : Char) (h : c ∈ (Nat.repr n).data) :
    ∃ m, m < 10 ∧ c = Nat.digitChar m := by
  rw [natRepr_data, Nat.toDigits] at h
  rcases toDigitsCore_mem _ _ _ _ h with h1 | h1
  · exact absurd h1 (List.not_mem_nil c)
  · exact h1

lemma intRepr_data_ne_brackets (n : Int) : (Int.repr n).data ≠ ['[', ']'] := by
  cases n with
  | ofNat m =>
    intro h
    have hmem : '[' ∈ (Int.repr (Int.ofNat m)).data := by rw [h]; exact List.mem_cons_self _ _
    have : (Int.repr (Int.ofNat m)).data = (Nat.repr m).data := rfl
    rw [this] at hmem
    rcases natRepr_mem_digit _ _ hmem with ⟨m', hm', he⟩
    exact digitChar_ne_bracket m' hm' he.symm
  | negSucc m =>
    intro h
    have : (Int.repr (Int.negSucc m)).data = '-' :: (Nat.repr (m + 1)).data := by
      show (("-" : String) ++ Nat.repr (m + 1)).data = _
      rw [String.data_append]
      rfl
    rw [this] at h
    exact absurd (List.head_eq_of_cons_eq h) (by decide)

lemma intRepr_data_ne_nil (n : Int) : (Int.repr n).data ≠ [] := by
  cases n with
  | ofNat m =>
    show (Nat.repr m).data ≠ []
    rw [natRepr_data]
    exact toDigits_ne_nil m
  | negSucc m =>
    have : (Int.repr (Int.negSucc m)).data = '-' :: (Nat.repr (m + 1)).data := by
      show (("-" : String) ++ Nat.repr (m + 1)).data = _
      rw [String.data_append]
      rfl
    rw [this]
    exact List.cons_ne_nil _ _

lemma jsonChars_ne_nil (j : Json) : jsonChars j ≠ [] := by
  cases j with
  | jnull => exact List.cons_ne_nil _ _
  | jbool b => cases b <;> exact List.cons_ne_nil _ _
  | jnum n => exact intRepr_data_ne_nil n
  | jstr s => exact List.cons_ne_nil _ _
  | jarr elems => exact List.cons_ne_nil _ _
  | jobj fields => exact List.cons_ne_nil _ _

lemma jsonArrChars_ne_nil (x : Json) (xs : List Json) : jsonArrChars (x :: xs) ≠ [] := by
  cases xs with
  | nil => exact jsonChars_ne_nil x
  | cons y ys =>
    rw [jsonArrChars]
    intro h
    exact jsonChars_ne_nil x (List.append_eq_nil.mp h).1

/-- The source's pagination-stop test `json.to_string() == "[]"` holds
exactly for the empty JSON array. -/
lemma jsonToString_eq_brackets_iff (j : Json) : jsonToString j = "[]" ↔ j = .jarr [] := by
  constructor
  · intro h
    have hd : jsonChars j = ['[', ']'] := congrArg String.data h
    cases j with
    | jnull => exact absurd hd (by decide)
    | jbool b => cases b <;> exact absurd hd (by decide)
    | jnum n => exact absurd hd (intRepr_data_ne_brackets n)
    | jstr s =>
      rw [jsonChars] at hd
      exact absurd (List.head_eq_of_cons_eq hd) (by decide)
    | jarr elems =>
      cases elems with
      | nil => rfl
      | cons x xs =>
        rw [jsonChars] at hd
        have htail := List.tail_eq_of_cons_eq hd
        have hlen := congrArg List.length htail
        simp only [List.length_append, List.length_cons, List.length_nil] at hlen
        have : jsonArrChars (x :: xs) = [] := List.eq_nil_of_length_eq_zero (by omega)
        exact absurd this (jsonArrChars_ne_nil x xs)
    | jobj fields =>
      rw [jsonChars] at hd
      exact absurd (List.head_eq_of_cons_eq hd) (by decide)
  · rintro rfl; rfl

/-! Behaviour of the pagination loop over a stream of well-formed pages. -/

lemma hcbLoopFuel_shift (env : Nat → FetchOutcome) :
    ∀ (fuel k : Nat) (acc : List Transfer),
    hcbLoopFuel env fuel (k + 1) acc = hcbLoopFuel (fun i => env (i + 1)) fuel k acc := by
  intro fuel
  induction fuel with
  | zero => intro k acc; rfl
  | succ f ih =>
    intro k acc
    rw [hcbLoopFuel, hcbLoopFuel]
    cases henv : env (k + 1) with
    | fail => rfl
    | ok json =>
      by_cases hbrk : jsonToString json = "[]"
      · simp [hbrk]
      · simp only [hbrk, if_false, ite_false]
        cases json with
        | jnull => exact ih (k + 1) acc
        | jbool b => exact ih (k + 1) acc
        | jnum n => exact ih (k + 1) acc
        | jstr s => exact ih (k + 1) acc
        | jobj fields => exact ih (k + 1) acc
        | jarr raws =>
          cases hdec : decodeTransfers raws with
          | none => simp only [hdec]
          | some ts =>
            simp only [hdec]
            exact ih (k + 1) (acc ++ ts)

lemma decodeTransfers_map_toJson (ts : List Transfer) :
    decodeTransfers (ts.map transferToJson) = some ts := by
  induction ts with
  | nil => rfl
  | cons t ts ih =>
    simp [decodeTransfers, transferToJson, transferFromJson, List.lookup, ih]

lemma pagesEnv_shift (p : List Transfer) (before : List (List Transfer))
    (rest : FetchOutcome) :
    (fun i => pagesEnv (p :: before) rest (i + 1)) = pagesEnv before rest := by
  funext i
  rfl

lemma pageJson_toString_ne (p : List Transfer) (hp : p ≠ []) :
    jsonToString (pageJson p) ≠ "[]" := by
  intro hc
  have harr := (jsonToString_eq_brackets_iff _).mp hc
  rw [pageJson] at harr
  have : p.map transferToJson = [] := by injection harr
  exact hp (List.map_eq_nil_iff.mp this)

lemma hcbLoopFuel_pagesEnv (rest : FetchOutcome) :
    ∀ (before : List (List Transfer)), (∀ p ∈ before, p ≠ []) →
    ∀ (fuel : Nat) (acc : List Transfer),
    hcbLoopFuel (pagesEnv before rest) (before.length + fuel) 0 acc
      = hcbLoopFuel (pagesEnv [] rest) fuel 0 (acc ++ before.flatten) := by
  intro before
  induction before with
  | nil => intro _ fuel acc; simp
  | cons p before ih =>
    intro h fuel acc
    have hp : p ≠ [] := h p (List.mem_cons_self _ _)
    have hlen : (p :: before).length + fuel = (before.length + fuel) + 1 := by
      simp [List.length_cons]
      omega
    rw [hlen, hcbLoopFuel]
    have henv : pagesEnv (p :: before) rest 0 = .ok (pageJson p) := rfl
    rw [henv]
    simp only [pageJson_toString_ne p hp, if_false, ite_false]
    rw [pageJson]
    simp only [decodeTransfers_map_toJson p]
    rw [hcbLoopFuel_shift, pagesEnv_shift]
    rw [ih (fun q hq => h q (List.mem_cons_of_mem _ hq)) fuel (acc ++ p)]
    rw [List.flatten_cons, List.append_assoc]

lemma hcb_data_pagesEnv_ok (before : List (List Transfer))
    (h : ∀ p ∈ before, p ≠ []) (fuel : Nat) (hf : before.length < fuel) :
    hcb_data (pagesEnv before (.ok (.jarr []))) fuel
      = some (.ok (before.flatten.filter transferFilter)) := by
  obtain ⟨k, rfl⟩ : ∃ k, fuel = before.length + (k + 1) :=
    ⟨fuel - before.length - 1, by omega⟩
  rw [hcb_data, hcbLoopFuel_pagesEnv _ _ h _ _, List.nil_append]
  rfl

lemma hcb_data_pagesEnv_err (before : List (List Transfer))
    (h : ∀ p ∈ before, p ≠ []) (fuel : Nat) (hf : before.length < fuel) :
    hcb_data (pagesEnv before .fail) fuel = some .err := by
  obtain ⟨k, rfl⟩ : ∃ k, fuel = before.length + (k + 1) :=
    ⟨fuel - before.length - 1, by omega⟩
  rw [hcb_data, hcbLoopFuel_pagesEnv _ _ h _ _, hcbLoopFuel]
  rfl

/-! Helper facts about the aggregator projections. -/

lemma foldl_tdiv_eq_sum (ts : List Transfer) :
    List.foldl (fun acc t => acc + Int.tdiv t.amount_cents 100) 0 ts
      = (ts.map fun t => Int.tdiv t.amount_cents 100).sum := by
  have hgen : ∀ init : Int, List.foldl (fun acc t => acc + Int.tdiv t.amount_cents 100) init ts
      = init + (ts.map fun t => Int.tdiv t.amount_cents 100).sum := by
    induction ts with
    | nil => intro init; simp
    | cons t ts ih =>
      intro init
      simp only [List.foldl_cons, List.map_cons, List.sum_cons, ih, add_assoc]
  simpa using hgen 0

lemma avg_grant_ok_of_ne_nil (ts : List Transfer) (h : ts ≠ []) :
    avg_grant (.ok ts)
      = .val (((ts.map fun t => Int.tdiv t.amount_cents 100).sum : ℚ) / (ts.length : ℚ)) := by
  have hlen : (ts.length : ℚ) ≠ 0 := by
    have := List.length_pos.mpr h
    positivity
  simp only [avg_grant, foldl_tdiv_eq_sum, floatDiv, hlen, if_neg, ite_false]

/-! Claim theorems. -/

/-- C1: for every ledger page sequence of (nonempty) pages ending in an
empty page, `hcb_data` terminates (any fuel beyond the page count) and
returns `Ok` of exactly the concatenation of the prior pages' elements,
with the domain filter `(amount_cents / 100) <= 100` applied once to the
full concatenation after retrieval; in particular with no prior pages
(first page already empty, `before = []`) the result is the empty batch
`Ok []`, not an error. -/
theorem hcb_data_returns_filtered_concatenation (before : List (List Transfer))
    (h : ∀ p ∈ before, p ≠ []) (fuel : Nat) (hf : before.length < fuel) :
    hcb_data (pagesEnv before (.ok (.jarr []))) fuel
      = some (.ok (before.flatten.filter transferFilter)) :=
  hcb_data_pagesEnv_ok before h fuel hf

theorem hcb_data_returns_filtered_concatenation_witness :
    (∀ p ∈ [[(⟨5000⟩ : Transfer), ⟨15000⟩], [⟨2000⟩]], p ≠ [])
      ∧ [[(⟨5000⟩ : Transfer), ⟨15000⟩], [⟨2000⟩]].length < 3
      ∧ hcb_data (pagesEnv [[⟨5000⟩, ⟨15000⟩], [⟨2000⟩]] (.ok (.jarr []))) 3
          = some (.ok ([[(⟨5000⟩ : Transfer), ⟨15000⟩], [⟨2000⟩]].flatten.filter transferFilter)) :=
  ⟨by decide, by decide,
    hcb_data_returns_filtered_concatenation [[⟨5000⟩, ⟨15000⟩], [⟨2000⟩]] (by decide) 3 (by decide)⟩

/-- C2: a transport-level or JSON-decoding failure on page `k` (after
`k` good pages) makes `hcb_data` abort and return the single top-level
error, carrying no partial page data, and on that error value the
aggregator projections yield `count_transfers = 0` and
`avg_grant = 0.0`. -/
theorem hcb_data_page_failure_aborts_and_projections_zero
    (before : List (List Transfer)) (h : ∀ p ∈ before, p ≠ [])
    (fuel : Nat) (hf : before.length < fuel) :
    hcb_data (pagesEnv before .fail) fuel = some .err
      ∧ count_transfers (.error ()) = 0
      ∧ avg_grant (.error ()) = .val 0 :=
  ⟨hcb_data_pagesEnv_err before h fuel hf, rfl, rfl⟩

theorem hcb_data_page_failure_aborts_and_projections_zero_witness :
    (∀ p ∈ [[(⟨5000⟩ : Transfer)]], p ≠ [])
      ∧ [[(⟨5000⟩ : Transfer)]].length < 2
      ∧ hcb_data (pagesEnv [[⟨5000⟩]] .fail) 2 = some .err
      ∧ count_transfers (.error ()) = 0
      ∧ avg_grant (.error ()) = .val 0 :=
  ⟨by decide, by decide,
    hcb_data_page_failure_aborts_and_projections_zero [[⟨5000⟩]] (by decide) 2 (by decide)⟩

/-- C3 counterexample: on the successfully fetched batch of two 50¢
transfers (both pass the domain filter, as the fetch conjunct shows),
the spec formula `sum(amount_cents)/100 / len` gives `0.5`, but
`avg_grant` sums the per-transfer truncated values `50 / 100 = 0` first
and returns `0.0`. -/
theorem avg_grant_differs_from_spec_formula :
    hcb_data (pagesEnv [[⟨50⟩, ⟨50⟩]] (.ok (.jarr []))) 2 = some (.ok [⟨50⟩, ⟨50⟩])
      ∧ avg_grant (.ok [⟨50⟩, ⟨50⟩]) = .val 0
      ∧ avgGrantSpecFormula [⟨50⟩, ⟨50⟩] = .val (1 / 2)
      ∧ FloatVal.val 0 ≠ .val (1 / 2) := by
  refine ⟨by decide, ?_, ?_, by norm_num⟩
  · simp [avg_grant, floatDiv, show Int.tdiv 50 100 = 0 from by decide]
  · norm_num [avgGrantSpecFormula, floatDiv]

/-- C3 amended: for every successfully fetched nonempty batch,
`avg_grant` returns the sum of the per-transfer truncated dollar values
`amount_cents / 100` divided by the batch length, and returns `0.0` when
the fetch result is an error; in particular for input amounts
`[5000, 15000]` cents the filter leaves only the 5000¢ transfer and the
average is exactly `50.0` with count `1`. -/
theorem avg_grant_truncated_dollar_mean (ts : List Transfer) (h : ts ≠ []) :
    avg_grant (.ok ts)
        = .val (((ts.map fun t => Int.tdiv t.amount_cents 100).sum : ℚ) / (ts.length : ℚ))
      ∧ avg_grant (.error ()) = .val 0
      ∧ hcb_data (pagesEnv [[⟨5000⟩, ⟨15000⟩]] (.ok (.jarr []))) 2 = some (.ok [⟨5000⟩])
      ∧ avg_grant (.ok [⟨5000⟩]) = .val 50
      ∧ count_transfers (.ok [⟨5000⟩]) = 1 := by
  refine ⟨avg_grant_ok_of_ne_nil ts h, rfl, by decide, ?_, rfl⟩
  simp [avg_grant, floatDiv, show Int.tdiv 5000 100 = 50 from by decide]

theorem avg_grant_truncated_dollar_mean_witness :
    ([(⟨5000⟩ : Transfer)] ≠ [])
      ∧ avg_grant (.ok [(⟨5000⟩ : Transfer)])
          = .val ((([(⟨5000⟩ : Transfer)].map fun t => Int.tdiv t.amount_cents 100).sum : ℚ)
              / (([(⟨5000⟩ : Transfer)].length : ℚ))) :=
  ⟨by decide, (avg_grant_truncated_dollar_mean [⟨5000⟩] (by decide)).1⟩

/-- C8: on an empty successfully fetched batch, `avg_grant` computes
`0 as f64 / 0 as f64`, a division by zero whose IEEE result is NaN —
not `0.0`. -/
theorem avg_grant_empty_batch_nan :
    avg_grant (.ok []) = .nan ∧ FloatVal.nan ≠ .val 0 :=
  ⟨by simp [avg_grant, floatDiv], by decide⟩

lemma count_transfers_ok_eq (l : List Transfer) :
    count_transfers (.ok l) = l.length % 65536 := rfl

/-- C9 counterexample: `count_transfers` casts the batch length `as u16`;
on an `Ok` batch of 65536 transfers it returns `0`, not the batch
length. -/
theorem count_transfers_u16_wraparound :
    count_transfers (.ok (List.replicate 65536 ⟨0⟩)) = 0
      ∧ (List.replicate 65536 (⟨0⟩ : Transfer)).length = 65536
      ∧ (0 : Nat) ≠ 65536 := by
  refine ⟨?_, List.length_replicate _ _, by norm_num⟩
  rw [count_transfers_ok_eq, List.length_replicate, Nat.mod_self]

/-- C9 amended: `count_transfers` never fails itself; it returns the
batch length reduced `as u16` (mod 2^16) when the result is `Ok` — hence
exactly the batch length whenever it is below 65536 — and `0` when the
result is an error. -/
theorem count_transfers_length_below_u16 (l : List Transfer) (h : l.length < 65536) :
    count_transfers (.ok l) = l.length
      ∧ count_transfers (.error ()) = 0
      ∧ (∀ l' : List Transfer, count_transfers (.ok l') = l'.length % 65536) := by
  refine ⟨?_, rfl, fun l' => rfl⟩
  simp only [count_transfers]
  exact Nat.mod_eq_of_lt h

theorem count_transfers_length_below_u16_witness :
    ([(⟨5000⟩ : Transfer)].length < 65536)
      ∧ count_transfers (.ok [(⟨5000⟩ : Transfer)]) = [(⟨5000⟩ : Transfer)].length :=
  ⟨by decide, (count_transfers_length_below_u16 [⟨5000⟩] (by decide)).1⟩

lemma tdiv_neg_nonpos (a : Int) (h : a < 0) : Int.tdiv a 100 ≤ 0 := by
  have h1 : Int.tdiv a 100 = -Int.tdiv (-a) 100 := by
    rw [← Int.neg_tdiv, neg_neg]
  rw [h1, neg_nonpos]
  exact Int.tdiv_nonneg (by omega) (by norm_num)

/-- C10 counterexample: the −50¢ transfer is retained by the domain
filter (its truncated quotient is 0 ≤ 100) but its contribution to the
`avg_grant` total is `(-50).tdiv 100 = 0` — zero, not negative: on the
singleton batch the accumulated total and the average are `0`, so small
refunds do not "contribute negatively" to the sum. -/
theorem negative_refund_contributes_zero :
    transferFilter ⟨-50⟩ = true
      ∧ Int.tdiv (-50) 100 = 0
      ∧ ¬Int.tdiv (-50) 100 < 0
      ∧ avg_grant (.ok [⟨-50⟩]) = .val 0 := by
  refine ⟨by decide, by decide, by decide, ?_⟩
  simp [avg_grant, floatDiv, show Int.tdiv (-50) 100 = 0 from by decide]

/-- C10 amended: every transfer with negative `amount_cents` passes the
domain filter (`(amount_cents / 100) <= 100` holds because truncating
division sends negatives toward zero), so refunds/reversals are always
retained in the returned batch — a single-page fetch of such a transfer
returns it — and the per-transfer term `amount_cents / 100` added to
`avg_grant`'s total is non-positive, not always strictly negative. -/
theorem negative_transfers_always_retained (t : Transfer)
    (h : t.amount_cents < 0) :
    transferFilter t = true
      ∧ hcb_data (pagesEnv [[t]] (.ok (.jarr []))) 2 = some (.ok [t])
      ∧ Int.tdiv t.amount_cents 100 ≤ 0 := by
  have hnp : Int.tdiv t.amount_cents 100 ≤ 0 := tdiv_neg_nonpos _ h
  have hfil : transferFilter t = true := by
    simp only [transferFilter, decide_eq_true_eq]
    exact le_trans hnp (by norm_num)
  refine ⟨hfil, ?_, hnp⟩
  rw [hcb_data_pagesEnv_ok [[t]] (by simp) 2 (by simp)]
  simp [hfil]

theorem negative_transfers_always_retained_witness :
    ((⟨-150⟩ : Transfer).amount_cents < 0)
      ∧ transferFilter ⟨-150⟩ = true
      ∧ hcb_data (pagesEnv [[(⟨-150⟩ : Transfer)]] (.ok (.jarr []))) 2
          = some (.ok [(⟨-150⟩ : Transfer)]) :=
  ⟨by decide, (negative_transfers_always_retained ⟨-150⟩ (by decide)).1,
    (negative_transfers_always_retained ⟨-150⟩ (by decide)).2.1⟩

/-- C4 counterexample: on the fatal paths of `count_dirs` — the
`git_download` fetch `unwrap` and the `fs::read_dir` `expect` — the
function exits (panics) without the scratch path having been removed:
cleanup runs only on the normal return path, so "removes the scratch
path on every exit path, including the fatal fetch-failure and
enumeration-failure paths" fails on the code. -/
theorem count_dirs_fatal_paths_skip_cleanup :
    count_dirs ⟨false, true, [], true⟩ = .fatal false
      ∧ count_dirs ⟨true, false, [], true⟩ = .fatal false
      ∧ CountDirsOutcome.fatal false ≠ .fatal true := by
  exact ⟨rfl, rfl, by decide⟩

/-- C4 amended: `count_dirs` invokes `remove_dir_all` on the scratch
path on its only returning path, whether or not that removal succeeds
(`removeOk` is recorded but the returned count — the number of
directory entries — is the same either way: a cleanup failure is only
logged, neither changing the count nor escalating); on the fatal
fetch-failure and enumeration-failure paths the process aborts without
the scratch path having been removed. -/
theorem count_dirs_cleanup_on_return (env : DirEnv)
    (hfetch : env.fetchOk = true) (hread : env.readDirOk = true) :
    count_dirs env
        = .ret ((env.entries.filterMap fun e => e.toOption).filter fun e => e.isDir).length
            env.removeOk
      ∧ (∀ e : DirEnv, e.fetchOk = false → count_dirs e = .fatal false)
      ∧ (∀ e : DirEnv, e.fetchOk = true → e.readDirOk = false →
          count_dirs e = .fatal false) := by
  refine ⟨?_, ?_, ?_⟩
  · simp [count_dirs, hfetch, hread]
  · intro e he; simp [count_dirs, he]
  · intro e he hr; simp [count_dirs, he, hr]

theorem count_dirs_cleanup_on_return_witness :
    ((⟨true, true, [.ok ⟨true⟩, .ok ⟨true⟩, .ok ⟨true⟩, .ok ⟨false⟩, .error ()], false⟩ :
        DirEnv).fetchOk = true)
      ∧ count_dirs ⟨true, true, [.ok ⟨true⟩, .ok ⟨true⟩, .ok ⟨true⟩, .ok ⟨false⟩, .error ()], false⟩
          = .ret 3 false :=
  ⟨rfl, by
    have h := (count_dirs_cleanup_on_return
      ⟨true, true, [.ok ⟨true⟩, .ok ⟨true⟩, .ok ⟨true⟩, .ok ⟨false⟩, .error ()], false⟩
      rfl rfl).1
    simpa using h⟩

/-- C5 counterexample: with a present credential, a transport failure
(`Client::..send()` returning `Err`) hits `response.unwrap()` and the
process panics — `airtable_verifications` does not degrade this failure
mode to the returned value `0`; likewise a successful send whose body is
not valid JSON hits `json.unwrap()` and panics. -/
theorem airtable_transport_failure_is_fatal :
    airtable_verifications (.ok "key") .Approved ⟨false, none⟩ = .fatal
      ∧ airtable_verifications (.ok "key") .Pending ⟨true, none⟩ = .fatal
      ∧ (∀ n : Nat, AirResult.fatal ≠ .ret n) :=
  ⟨rfl, rfl, fun _ h => AirResult.noConfusion h⟩

/-- C5 amended: `airtable_verifications` with a present credential
degrades to the returned value `0` (with a distinguishing log line) in
exactly two of the four failure modes — a parsed JSON body missing the
top-level `records` key, and a `records` value that is not a sequence —
for every view variant; a transport failure or a non-JSON response body
instead panics via `unwrap`, aborting the process; a well-formed
`records` array yields its length (`as u16`); an absent credential
yields `0`. -/
theorem airtable_failure_mode_results (key : String) (v : AirTableViews)
    (env : AirEnv) :
    airtable_verifications (.error ()) v env = .ret 0
      ∧ (env.sendOk = false → airtable_verifications (.ok key) v env = .fatal)
      ∧ (env.sendOk = true → env.body = none →
          airtable_verifications (.ok key) v env = .fatal)
      ∧ (∀ j, env.sendOk = true → env.body = some j → j.getKey "records" = none →
          airtable_verifications (.ok key) v env = .ret 0)
      ∧ (∀ j records, env.sendOk = true → env.body = some j →
          j.getKey "records" = some records → records.asArray = none →
          airtable_verifications (.ok key) v env = .ret 0)
      ∧ (∀ j records elems, env.sendOk = true → env.body = some j →
          j.getKey "records" = some records → records.asArray = some elems →
          airtable_verifications (.ok key) v env = .ret (elems.length % 65536)) := by
  refine ⟨rfl, ?_, ?_, ?_, ?_, ?_⟩
  · intro hs; simp [airtable_verifications, hs]
  · intro hs hb; simp [airtable_verifications, hs, hb]
  · intro j hs hb hk; simp [airtable_verifications, hs, hb, hk]
  · intro j records hs hb hk ha; simp [airtable_verifications, hs, hb, hk, ha]
  · intro j records elems hs hb hk ha; simp [airtable_verifications, hs, hb, hk, ha]

theorem airtable_failure_mode_results_witness :
    airtable_verifications (.ok "key") .Approved
        ⟨true, some (.jobj [("records", .jarr [.jobj [], .jobj [], .jobj []])])⟩
      = .ret ([Json.jobj [], .jobj [], .jobj []].length % 65536) :=
  (airtable_failure_mode_results "key" .Approved
      ⟨true, some (.jobj [("records", .jarr [.jobj [], .jobj [], .jobj []])])⟩).2.2.2.2.2
    (.jobj [("records", .jarr [.jobj [], .jobj [], .jobj []])])
    (.jarr [.jobj [], .jobj [], .jobj []]) [.jobj [], .jobj [], .jobj []]
    rfl rfl rfl rfl

/-- C7 counterexample: a page whose body is the JSON array `[null]` — a
value other than the empty-list literal — makes the loop neither
terminate nor proceed to the next page index: the per-element
`serde_json::from_value(..).unwrap()` panics (with fuel for exactly one
iteration the result is the panic, where a loop that proceeded to the
next page would have exhausted the fuel and given `none`). -/
theorem hcb_undecodable_page_aborts :
    hcbLoopFuel (fun _ => .ok (.jarr [.jnull])) 1 0 [] = some .fatal
      ∧ hcb_data (fun _ => .ok (.jarr [.jnull])) 5 = some .fatal
      ∧ some LoopExit.fatal ≠ (none : Option LoopExit)
      ∧ HcbResult.fatal ≠ .err := by
  refine ⟨by decide, by decide, by decide, by decide⟩

/-- C7 amended: the pagination loop of `hcb_data` breaks on a page
exactly when the page's body serializes to the empty-list literal `[]`,
which holds precisely for the empty JSON array; any other body never
breaks the loop on that page: a non-array body (including every
falsy-but-nonempty JSON value) proceeds to the next page index
unchanged, a nonempty array of well-formed transfer objects proceeds to
the next page index with its elements accumulated, and an array
containing an undecodable element panics via the element `unwrap`
(aborting the process rather than proceeding). -/
theorem hcb_pagination_break_characterisation (env : Nat → FetchOutcome)
    (fuel off : Nat) (acc : List Transfer) (j : Json) (henv : env off = .ok j) :
    (jsonToString j = "[]" ↔ j = .jarr [])
      ∧ (j = .jarr [] → hcbLoopFuel env (fuel + 1) off acc = some (.brk acc))
      ∧ (j.asArray = none →
          hcbLoopFuel env (fuel + 1) off acc = hcbLoopFuel env fuel (off + 1) acc)
      ∧ (∀ raws ts, j = .jarr raws → raws ≠ [] → decodeTransfers raws = some ts →
          hcbLoopFuel env (fuel + 1) off acc = hcbLoopFuel env fuel (off + 1) (acc ++ ts))
      ∧ (∀ raws, j = .jarr raws → raws ≠ [] → decodeTransfers raws = none →
          hcbLoopFuel env (fuel + 1) off acc = some .fatal) := by
  refine ⟨jsonToString_eq_brackets_iff j, ?_, ?_, ?_, ?_⟩
  · rintro rfl
    rw [hcbLoopFuel, henv]
    rfl
  · intro ha
    rw [hcbLoopFuel, henv]
    have hbrk : jsonToString j ≠ "[]" := by
      intro hc
      rw [(jsonToString_eq_brackets_iff j).mp hc] at ha
      exact Option.noConfusion ha
    cases j with
    | jarr elems => exact absurd ha (by rw [Json.asArray]; exact Option.noConfusion)
    | jnull => simp only [hbrk, if_false, ite_false]
    | jbool b => simp only [hbrk, if_false, ite_false]
    | jnum n => simp only [hbrk, if_false, ite_false]
    | jstr s => simp only [hbrk, if_false, ite_false]
    | jobj fields => simp only [hbrk, if_false, ite_false]
  · rintro raws ts rfl hraws hdec
    rw [hcbLoopFuel, henv]
    have hbrk : jsonToString (Json.jarr raws) ≠ "[]" := by
      intro hc
      have := (jsonToString_eq_brackets_iff _).mp hc
      injection this with h0
      exact hraws h0
    simp only [hbrk, if_false, ite_false, hdec]
  · rintro raws rfl hraws hdec
    rw [hcbLoopFuel, henv]
    have hbrk : jsonToString (Json.jarr raws) ≠ "[]" := by
      intro hc
      have := (jsonToString_eq_brackets_iff _).mp hc
      injection this with h0
      exact hraws h0
    simp only [hbrk, if_false, ite_false, hdec]

theorem hcb_pagination_break_characterisation_witness :
    (jsonToString (Json.jnum 7) = "[]" ↔ Json.jnum 7 = .jarr [])
      ∧ hcbLoopFuel (fun _ => .ok (.jnum 7)) 1 0 []
          = hcbLoopFuel (fun _ => .ok (.jnum 7)) 0 1 [] :=
  ⟨(hcb_pagination_break_characterisation (fun _ => .ok (.jnum 7)) 0 0 [] (.jnum 7) rfl).1,
    (hcb_pagination_break_characterisation (fun _ => .ok (.jnum 7)) 0 0 [] (.jnum 7)
      rfl).2.2.1 rfl⟩

/-- C6: `main` awaits `hcb_data()` once, before the scrape loop, and
every cycle reuses that startup value.  At the failing input — ledger
serving one $50 transfer at startup, one additional $60 transfer during
the second cycle — the code writes `transfers_count = 1` and
`avg_grant = 50.0` on both cycles (all five gauge values identical),
whereas the per-cycle fresh fetch described by the claim yields
`transfers_count = 2` and `avg_grant = 55.0` on the second cycle: the
transfer gauges never react to upstream changes after startup. -/
theorem main_transfer_gauges_frozen_at_startup :
    mainModel ledgerOneTransfer 2 (.error ()) [cycleEnvFirst, cycleEnvSecond]
        = some [some ⟨0, 1, .val 50, 0, 0⟩, some ⟨0, 1, .val 50, 0, 0⟩]
      ∧ runCycleFreshFetch (.error ()) 2 cycleEnvSecond = some ⟨0, 2, .val 55, 0, 0⟩
      ∧ FloatVal.val 55 ≠ .val 50
      ∧ (2 : Nat) ≠ 1 := by
  have h1 : hcb_data ledgerOneTransfer 2 = some (.ok [⟨5000⟩]) := by decide
  have h2 : hcb_data ledgerTwoTransfers 2 = some (.ok [⟨5000⟩, ⟨6000⟩]) := by decide
  have havg1 : avg_grant (.ok [⟨5000⟩]) = .val 50 := by
    simp [avg_grant, floatDiv, show Int.tdiv 5000 100 = 50 from by decide]
  have havg2 : avg_grant (.ok [⟨5000⟩, ⟨6000⟩]) = .val 55 := by
    simp [avg_grant, floatDiv, show Int.tdiv 5000 100 = 50 from by decide,
      show Int.tdiv 6000 100 = 60 from by decide]
    norm_num
  refine ⟨?_, ?_, by norm_num, by decide⟩
  · simp only [mainModel, h1]
    simp [runCycle, cycleEnvFirst, cycleEnvSecond, benignDirEnv, benignAirEnv,
      count_dirs, airtable_verifications, count_transfers, havg1]
  · simp only [runCycleFreshFetch, cycleEnvSecond, h2]
    simp [runCycle, cycleEnvSecond, benignDirEnv, benignAirEnv,
      count_dirs, airtable_verifications, count_transfers, havg2]
